import Mathlib

/-!
Verification of the hash-join orchestration code in
`src/src/hash-join/join_compute_api.h` (functions `GenericJoinHash`,
`InnerJoinHash`, `LeftJoinHash`, `pairs_to_decoupled`, constant
`DEFAULT_HASH_TBL_OCCUPANCY`).

The CUDA kernels referenced by the orchestrator (`build_hash_tbl`,
`probe_hash_tbl_count_common`, `probe_hash_tbl` in `join_kernels.cuh`,
which is not part of the sources) are modelled from the specification:
the hash table holds every row of the build column, the counting probe
increments a counter once per (probe row, build row) key match over the
sampled prefix of the probe column, and the materializing probe writes
the matching index pairs, bounded by the current buffer capacity, while
the counter records the true total.  Machine integers are modelled as
`Nat`; a C++ division by zero and a non-terminating host loop are both
surfaced as observable outcomes (an explicit flag, resp. an `Option`
result that is `none` for every sufficient fuel value).
-/

namespace HashJoin

/-- A join input column set: the key column plus the optional composite key
columns (`a2`/`a3` resp. `b2`/`b3` in the source, absent = NULL pointer). -/
structure Cols where
  key  : List Nat
  key2 : Option (List Nat)
  key3 : Option (List Nat)

/-- Row count of a column set (`a_count` / `b_count` in the source). -/
def Cols.count (c : Cols) : Nat := c.key.length

/-- Result of one join call: the returned `cudaError_t` status (0 = success)
and the contents of the `joined_output` device array after the call. -/
structure JoinRet where
  status : Nat
  output : List Nat

/-- Device-error environment: the status each kernel-launch site would
report (0 = `cudaSuccess`).  `buildErr` is what `cudaGetLastError` returns
after the `build_hash_tbl` launch (line 112), `countErr` what it would
return after the `probe_hash_tbl_count_common` launch, and `probeSyncErr`
what `cudaDeviceSynchronize` returns after the `probe_hash_tbl` launch
(line 189).  A failed launch performs no device writes, so counters keep
their `cudaMemset` value 0. -/
structure ErrEnv where
  buildErr : Nat
  countErr : Nat
  probeSyncErr : Nat

/-- The error-free device environment. -/
def noErr : ErrEnv := ⟨0, 0, 0⟩

/-- Source line 32: `constexpr int DEFAULT_HASH_TBL_OCCUPANCY = 50`. -/
def DEFAULT_HASH_TBL_OCCUPANCY : Nat := 50

/-- Source line 102: the hash-table capacity
`(size_type)((size_t) b_count * 100 / DEFAULT_HASH_TBL_OCCUPANCY)`. -/
def hash_tbl_size (b_count : Nat) : Nat :=
  b_count * 100 / DEFAULT_HASH_TBL_OCCUPANCY

/-- Modelled from the spec: key comparison on one optional composite key
column pair.  The spec supplies composite columns in pairs (a2/b2, a3/b3);
a pair that is absent does not constrain the match. -/
def optMatch : Option (List Nat) → Option (List Nat) → Nat → Nat → Bool
  | some xs, some ys, i, j => xs.getD i 0 == ys.getD j 0
  | _, _, _, _ => true

/-- Modelled from the spec: the match predicate used by the probe kernels of
`join_kernels.cuh` (not under the sources): probe row `i` of `A` matches
build row `j` of `B` when the join keys are equal and every supplied
composite key component is equal as well. -/
def rowMatch (A B : Cols) (i j : Nat) : Bool :=
  (A.key.getD i 0 == B.key.getD j 0) &&
    optMatch A.key2 B.key2 i j && optMatch A.key3 B.key3 i j

/-- Modelled from the spec: all matches of probe row `i` against the hash
table (which holds every row of the build column `B`), in build-row order. -/
def rowHits (A B : Cols) (i : Nat) : List (Nat × Nat) :=
  ((List.range B.count).filter (fun j => rowMatch A B i j)).map (fun j => (i, j))

/-- Modelled from the spec: the matches produced by probing the first
`sample` rows of the probe column `A` against the hash table over `B`. -/
def matchHits (A B : Cols) : Nat → List (Nat × Nat)
  | 0 => []
  | s + 1 => matchHits A B s ++ rowHits A B s

/-- Modelled from the spec: every matching (probe row, build row) pair,
i.e. the matches of the full probe column. -/
def allMatches (A B : Cols) : List (Nat × Nat) := matchHits A B A.count

/-- Modelled from the spec: the value of the match counter written by the
counting probe kernel `probe_hash_tbl_count_common` when scanning the first
`sample` rows of `A`: one increment per match found. -/
def countCommon (A B : Cols) (sample : Nat) : Nat :=
  (matchHits A B sample).length

/-- Modelled from the spec: the counter value the host reads back after the
counting-probe launch.  If the launch failed the kernel wrote nothing and
the counter keeps its `cudaMemset` value 0. -/
def countProbe (env : ErrEnv) (A B : Cols) (sample : Nat) : Nat :=
  if env.countErr ≠ 0 then 0 else countCommon A B sample

/-- Source lines 122-127: initial sampling parameters.  If
`a_count > 5*b_count` the sample is the first `b_count` rows of A and
`size_ratio = a_count/b_count + 1`, otherwise the sample is all of A with
ratio 1.  Note that the division `a_count / b_count` is executed exactly
when the condition holds; `Nat` division renders `x / 0` as 0, whereas in
the C++ source it is undefined behavior (see
`size_ratio_divides_by_zero`). -/
def initSample (a_count b_count : Nat) : Nat × Nat :=
  if 5 * b_count < a_count then (b_count, a_count / b_count + 1) else (a_count, 1)

/-- Source line 126 divides `a_count` by `b_count` under the guard
`a_count > 5*b_count`; this flag is true exactly when that division has a
zero divisor (undefined behavior in C++). -/
def size_ratio_divides_by_zero (a_count b_count : Nat) : Bool :=
  decide (5 * b_count < a_count) && (b_count == 0)

/-- Source lines 131-158: the sampling/estimation loop.  Each iteration
clamps the sample to `a_count`, runs the counting probe over the sample,
scales the counter by the ratio, exits with the estimate (`scanSize`) and
the sample when the estimate is positive or the whole column was sampled,
and otherwise doubles the sample and halves the ratio (floor 1).  The
source loop has no fuel; `none` models non-termination (every recursive
call strictly consumes fuel, and the lemmas below show `none` is reached
for every fuel value exactly on the inputs where the C++ loop spins). -/
def estimateLoop (env : ErrEnv) (A B : Cols) : Nat → Nat → Nat → Option (Nat × Nat)
  | _, _, 0 => none
  | sample, rat, fuel + 1 =>
    let sample' := min sample A.count
    let scanSize := countProbe env A B sample' * rat
    if 0 < scanSize ∨ sample' = A.count then some (scanSize, sample')
    else
      let rat' := rat / 2
      let rat'' := if rat' = 0 then 1 else rat'
      estimateLoop env A B (sample' * 2) rat'' fuel

/-- Fuel that suffices for the estimate loop whenever the C++ loop
terminates (the sample at least doubles each iteration). -/
def estimateFuel (A : Cols) : Nat := A.count + 2

/-- The final `(scanSize, a_sample_size)` of the estimation loop of
`GenericJoinHash` (source lines 122-158), or `none` when the loop spins. -/
def finalEstimate (env : ErrEnv) (A B : Cols) : Option (Nat × Nat) :=
  estimateLoop env A B (initSample A.count B.count).1
    (initSample A.count B.count).2 (estimateFuel A)

/-- Source lines 173-201: the buffer-growth retry loop.  `found` is the
counter value read after device synchronization (the same every retry);
while `scanSize < h_actual_found` the buffer is freed, `scanSize` is
doubled, and the probe is re-run.  Fuel models the unbounded C++ loop. -/
def growLoop (found : Nat) : Nat → Nat → Option Nat
  | _, 0 => none
  | scanSize, fuel + 1 =>
    if scanSize < found then growLoop found (scanSize * 2) fuel
    else some scanSize

/-- Source lines 47-58 (`pairs_to_decoupled`): writes, for every
`index < output_npairs`, `out[index]` and `out[index + output_npairs]`,
flipping first/second when `flip_indices` is set; when `output_npairs = 0`
nothing is launched and `output` is left as allocated. -/
def pairs_to_decoupled (output : List Nat) (output_npairs : Nat)
    (joined : List (Nat × Nat)) (flip_indices : Bool) : List Nat :=
  if 0 < output_npairs then
    (List.range output_npairs).map
      (fun index => if flip_indices then (joined.getD index (0, 0)).2
                    else (joined.getD index (0, 0)).1) ++
    (List.range output_npairs).map
      (fun index => if flip_indices then (joined.getD index (0, 0)).1
                    else (joined.getD index (0, 0)).2)
  else output

/-- Source lines 76-210 (`GenericJoinHash`): build the hash table over `B`
(capacity `hash_tbl_size B.count`), run the estimation loop, return
immediately (output untouched) when the estimate is 0, otherwise run the
materializing probe with buffer growth, reallocate `joined_output` to
`2 * h_actual_found` entries and decouple the pairs into it.  The check
after the counting-probe launch (line 143) re-tests the stale `error`
value, so `countErr` is never returned; the status of
`cudaDeviceSynchronize` (line 189) is returned at the end but does not
stop the transposition.  `none` models a non-terminating call. -/
def GenericJoinHash (env : ErrEnv) (A B : Cols) (flip_results : Bool)
    (joined_output : List Nat) : Option JoinRet :=
  let _hash_tbl_capacity := hash_tbl_size B.count
  if env.buildErr ≠ 0 then some ⟨env.buildErr, joined_output⟩
  else
    match finalEstimate env A B with
    | none => none
    | some (scanSize, _) =>
      if scanSize = 0 then some ⟨0, joined_output⟩
      else
        let h_actual_found := if env.probeSyncErr ≠ 0 then 0 else (allMatches A B).length
        match growLoop h_actual_found scanSize (h_actual_found + 1) with
        | none => none
        | some finalScan =>
          let tempOut := if env.probeSyncErr ≠ 0 then []
                         else (allMatches A B).take finalScan
          some ⟨env.probeSyncErr,
                pairs_to_decoupled (List.replicate (2 * h_actual_found) 0)
                  h_actual_found tempOut flip_results⟩

/-- Source lines 225-232 (`LeftJoinHash`): a thin wrapper calling
`GenericJoinHash` with the default `flip_results = false`. -/
def LeftJoinHash (env : ErrEnv) (A B : Cols) (joined_output : List Nat) :
    Option JoinRet :=
  GenericJoinHash env A B false joined_output

/-- Source lines 249-258 (`InnerJoinHash`): when `b_count > a_count` the two
sides (and their composite columns) are swapped and `flip_results` is set,
so the hash table is built over the smaller column. -/
def InnerJoinHash (env : ErrEnv) (A B : Cols) (joined_output : List Nat) :
    Option JoinRet :=
  if A.count < B.count then GenericJoinHash env B A true joined_output
  else GenericJoinHash env A B false joined_output

/-- The (left row, right row) pairs encoded in an output array: entry `k` of
the first half together with entry `k` of the second half. -/
def resultPairsOf (output : List Nat) : List (Nat × Nat) :=
  (List.range (output.length / 2)).map
    (fun k => (output.getD k 0, output.getD (k + output.length / 2) 0))

/-- The (left row, right row) pairs encoded in a returned join result. -/
def resultPairs (r : JoinRet) : List (Nat × Nat) := resultPairsOf r.output

/-- Follows the spec's words (section 4.3, step 1): "If `|A| > 5*|B|`, treat
the first `|B|` rows of A as a representative sample; track a
`size_ratio = |A|/|B| + 1` to extrapolate", otherwise the whole column is
the sample with ratio 1. -/
def specInitSample (a_count b_count : Nat) : Nat × Nat :=
  if a_count ≤ 5 * b_count then (a_count, 1)
  else (b_count, a_count / b_count + 1)

/-- Follows the spec's words (section 4.3, steps 2-5): estimate = counter
times ratio; terminate when the estimate is positive or the full input has
been sampled; otherwise double the sample size and halve the ratio
(floor 1) and retry. -/
def specEstimate (A B : Cols) : Nat → Nat → Nat → Option (Nat × Nat)
  | _, _, 0 => none
  | sample, rat, fuel + 1 =>
    let s := min sample A.count
    let est := countCommon A B s * rat
    if 0 < est then some (est, s)
    else if s = A.count then some (est, s)
    else specEstimate A B (2 * s) (max 1 (rat / 2)) fuel

/-! ### List-level facts about the modelled probe output -/

theorem mem_rowHits {A B : Cols} {i : Nat} {p : Nat × Nat} :
    p ∈ rowHits A B i ↔ p.1 = i ∧ p.2 < B.count ∧ rowMatch A B i p.2 = true := by
  unfold rowHits
  constructor
  · intro h
    rcases List.mem_map.mp h with ⟨j, hj, hp⟩
    rcases List.mem_filter.mp hj with ⟨hjr, hjm⟩
    subst hp
    exact ⟨rfl, List.mem_range.mp hjr, hjm⟩
  · rintro ⟨h1, h2, h3⟩
    refine List.mem_map.mpr ⟨p.2, List.mem_filter.mpr ⟨List.mem_range.mpr h2, h3⟩, ?_⟩
    rw [← h1]

theorem mem_matchHits {A B : Cols} {p : Nat × Nat} :
    ∀ {s : Nat}, p ∈ matchHits A B s ↔
      p.1 < s ∧ p.2 < B.count ∧ rowMatch A B p.1 p.2 = true := by
  intro s
  induction s with
  | zero => simp [matchHits]
  | succ n ih =>
    unfold matchHits
    rw [List.mem_append, ih, mem_rowHits]
    constructor
    · rintro (⟨h1, h2, h3⟩ | ⟨h1, h2, h3⟩)
      · exact ⟨Nat.lt_succ_of_lt h1, h2, h3⟩
      · exact ⟨by omega, h2, by rw [← h1] at h3; exact h3⟩
    · rintro ⟨h1, h2, h3⟩
      rcases Nat.lt_succ_iff_lt_or_eq.mp h1 with h | h
      · exact Or.inl ⟨h, h2, h3⟩
      · exact Or.inr ⟨h, h2, by rw [h] at h3; exact h3⟩

theorem mem_allMatches {A B : Cols} {i j : Nat} :
    (i, j) ∈ allMatches A B ↔
      i < A.count ∧ j < B.count ∧ rowMatch A B i j = true := by
  unfold allMatches
  exact mem_matchHits

theorem matchHits_zero (A B : Cols) : matchHits A B 0 = [] := rfl

theorem countCommon_zero (A B : Cols) : countCommon A B 0 = 0 := rfl

theorem countCommon_full (A B : Cols) :
    countCommon A B A.count = (allMatches A B).length := rfl

theorem matchHits_eq_append (A B : Cols) :
    ∀ {s t : Nat}, s ≤ t → ∃ u, matchHits A B t = matchHits A B s ++ u := by
  intro s t h
  induction t with
  | zero =>
    exact ⟨[], by simp [Nat.le_zero.mp h, matchHits]⟩
  | succ n ih =>
    rcases Nat.lt_succ_iff_lt_or_eq.mp (Nat.lt_succ_of_le h) with h' | h'
    · rcases ih (Nat.le_of_lt_succ h') with ⟨u, hu⟩
      exact ⟨u ++ rowHits A B n, by rw [matchHits, hu, List.append_assoc]⟩
    · exact ⟨[], by simp [h']⟩

theorem matchHits_nil_of (A B : Cols) {s : Nat} (hs : s ≤ A.count)
    (h : allMatches A B = []) : matchHits A B s = [] := by
  rcases matchHits_eq_append A B hs with ⟨u, hu⟩
  unfold allMatches at h
  rw [hu] at h
  exact List.append_eq_nil.mp h |>.1

theorem countCommon_zero_of (A B : Cols) {s : Nat} (hs : s ≤ A.count)
    (h : allMatches A B = []) : countCommon A B s = 0 := by
  unfold countCommon
  rw [matchHits_nil_of A B hs h]
  rfl

theorem countCommon_pos_matches {A B : Cols} {s : Nat} (hs : s ≤ A.count)
    (h : 0 < countCommon A B s) : allMatches A B ≠ [] := by
  intro hnil
  rw [countCommon_zero_of A B hs hnil] at h
  exact Nat.lt_irrefl 0 h

theorem nat_beq_comm (a b : Nat) : (a == b) = (b == a) := by
  rw [Bool.eq_iff_iff]
  simp only [beq_iff_eq]
  exact eq_comm

theorem optMatch_symm (x y : Option (List Nat)) (i j : Nat) :
    optMatch x y i j = optMatch y x j i := by
  cases x <;> cases y <;> simp [optMatch, nat_beq_comm]

theorem rowMatch_symm (A B : Cols) (i j : Nat) :
    rowMatch A B i j = rowMatch B A j i := by
  unfold rowMatch
  rw [nat_beq_comm, optMatch_symm A.key2 B.key2,  optMatch_symm A.key3 B.key3]

theorem nodup_rowHits (A B : Cols) (i : Nat) : (rowHits A B i).Nodup := by
  unfold rowHits
  exact List.Nodup.map (fun a b hab => (Prod.mk.injEq i a i b ▸ hab).2)
    (List.Nodup.filter _ (List.nodup_range _))

theorem nodup_matchHits (A B : Cols) : ∀ s, (matchHits A B s).Nodup := by
  intro s
  induction s with
  | zero => exact List.nodup_nil
  | succ n ih =>
    unfold matchHits
    refine List.Nodup.append ih (nodup_rowHits A B n) ?_
    intro p hp hp'
    have h1 := (mem_matchHits.mp hp).1
    have h2 := (mem_rowHits.mp hp').1
    omega

theorem nodup_allMatches (A B : Cols) : (allMatches A B).Nodup :=
  nodup_matchHits A B A.count

theorem allMatches_swap_perm (A B : Cols) :
    List.Perm ((allMatches B A).map Prod.swap) (allMatches A B) := by
  refine (List.perm_ext_iff_of_nodup
    (List.Nodup.map Prod.swap_injective (nodup_allMatches B A))
    (nodup_allMatches A B)).mpr ?_
  rintro ⟨i, j⟩
  constructor
  · intro h
    rcases List.mem_map.mp h with ⟨⟨a, b⟩, hab, hswap⟩
    rw [Prod.swap_prod_mk] at hswap
    injection hswap with hb ha
    subst hb
    subst ha
    rcases mem_allMatches.mp hab with ⟨h1, h2, h3⟩
    exact mem_allMatches.mpr ⟨h2, h1, by rw [rowMatch_symm]; exact h3⟩
  · intro h
    rcases mem_allMatches.mp h with ⟨h1, h2, h3⟩
    refine List.mem_map.mpr ⟨(j, i), mem_allMatches.mpr ⟨h2, h1, ?_⟩, rfl⟩
    rw [rowMatch_symm B A]
    exact h3

theorem length_allMatches_swap (A B : Cols) :
    (allMatches B A).length = (allMatches A B).length := by
  have h := (allMatches_swap_perm A B).length_eq
  rw [List.length_map] at h
  exact h

/-! ### The estimation loop -/

theorem estimateLoop_stuck (env : ErrEnv) (A B : Cols) (hA : 0 < A.count) :
    ∀ fuel rat, estimateLoop env A B 0 rat fuel = none := by
  intro fuel
  induction fuel with
  | zero => intro rat; rfl
  | succ n ih =>
    intro rat
    unfold estimateLoop
    have hmin : min 0 A.count = 0 := Nat.min_eq_left (Nat.zero_le _)
    have hcp : countProbe env A B 0 = 0 := by
      unfold countProbe countCommon
      split <;> rfl
    simp only [hmin, hcp, Nat.zero_mul]
    rw [if_neg (by omega)]
    exact ih _

theorem estimateLoop_spec {env : ErrEnv} {A B : Cols} :
    ∀ {fuel sample rat s sm}, 1 ≤ rat →
    estimateLoop env A B sample rat fuel = some (s, sm) →
    sm ≤ A.count ∧
      ∃ r2, 1 ≤ r2 ∧ s = countProbe env A B sm * r2 ∧ (s = 0 → sm = A.count) := by
  intro fuel
  induction fuel with
  | zero => intro _ _ _ _ _ h; exact absurd h (by simp [estimateLoop])
  | succ n ih =>
    intro sample rat s sm hrat h
    unfold estimateLoop at h
    by_cases hc : 0 < countProbe env A B (min sample A.count) * rat ∨
        min sample A.count = A.count
    · rw [if_pos hc] at h
      injection h with h'
      injection h' with h1 h2
      subst h1
      subst h2
      refine ⟨Nat.min_le_right _ _, rat, hrat, rfl, fun hz => ?_⟩
      rcases hc with hc | hc
      · omega
      · exact hc
    · rw [if_neg hc] at h
      have hrat' : 1 ≤ (if rat / 2 = 0 then 1 else rat / 2) := by
        split <;> omega
      exact ih hrat' h

theorem estimateLoop_isSome {env : ErrEnv} {A B : Cols} :
    ∀ {fuel : Nat} (sample rat : Nat), 1 ≤ sample → A.count ≤ sample + fuel →
    (estimateLoop env A B sample rat (fuel + 1)).isSome := by
  intro fuel
  induction fuel with
  | zero =>
    intro sample rat hs hle
    unfold estimateLoop
    rw [if_pos (Or.inr (by omega))]
    rfl
  | succ n ih =>
    intro sample rat hs hle
    unfold estimateLoop
    by_cases hc : 0 < countProbe env A B (min sample A.count) * rat ∨
        min sample A.count = A.count
    · rw [if_pos hc]; rfl
    · rw [if_neg hc]
      have hlt : min sample A.count < A.count := by
        rcases Nat.lt_or_ge (min sample A.count) A.count with h | h
        · exact h
        · exact absurd (Nat.le_antisymm (Nat.min_le_right _ _) h) (fun he => hc (Or.inr he))
      have h1 : 1 ≤ min sample A.count := by omega
      exact ih _ _ (by omega) (by omega)

theorem finalEstimate_isSome {env : ErrEnv} {A B : Cols}
    (h : 1 ≤ B.count ∨ A.count = 0) : (finalEstimate env A B).isSome := by
  unfold finalEstimate estimateFuel
  by_cases hA : A.count = 0
  · have hinit : initSample A.count B.count = (A.count, 1) := by
      unfold initSample
      rw [if_neg (by omega)]
    rw [hinit, hA]
    unfold estimateLoop
    rw [if_pos (Or.inr (by omega))]
    rfl
  · have hA1 : 1 ≤ A.count := by omega
    have hB1 : 1 ≤ B.count := by
      rcases h with h | h
      · exact h
      · exact absurd h hA
    unfold initSample
    split
    · exact estimateLoop_isSome _ _ hB1 (by omega)
    · exact estimateLoop_isSome _ _ hA1 (by omega)

theorem initSample_ratio_pos (a_count b_count : Nat) :
    1 ≤ (initSample a_count b_count).2 := by
  unfold initSample
  split <;> simp

theorem finalEstimate_spec {env : ErrEnv} {A B : Cols} {s sm : Nat}
    (h : finalEstimate env A B = some (s, sm)) :
    sm ≤ A.count ∧
      ∃ r2, 1 ≤ r2 ∧ s = countProbe env A B sm * r2 ∧ (s = 0 → sm = A.count) :=
  estimateLoop_spec (initSample_ratio_pos A.count B.count) h

/-- A zero final estimate in the error-free environment means the full probe
column was sampled and no match exists at all. -/
theorem finalEstimate_zero_no_matches {A B : Cols} {sm : Nat}
    (h : finalEstimate noErr A B = some (0, sm)) : allMatches A B = [] := by
  rcases finalEstimate_spec h with ⟨hsm, r2, hr2, hs, hz⟩
  have hsmA : sm = A.count := hz rfl
  have hcp : countProbe noErr A B sm = 0 := by
    rcases Nat.mul_eq_zero.mp hs.symm with h0 | h0
    · exact h0
    · omega
  rw [hsmA] at hcp
  unfold countProbe noErr at hcp
  simp only [if_neg (by simp : ¬ (0 ≠ 0))] at hcp
  rw [countCommon_full] at hcp
  exact List.length_eq_zero.mp hcp

/-- Conversely, if no match exists the error-free final estimate is
`(0, A.count)`. -/
theorem finalEstimate_of_no_matches {A B : Cols}
    (hnil : allMatches A B = []) (h : 1 ≤ B.count ∨ A.count = 0) :
    finalEstimate noErr A B = some (0, A.count) := by
  rcases Option.isSome_iff_exists.mp (@finalEstimate_isSome noErr A B h) with ⟨⟨s, sm⟩, hsome⟩
  rcases finalEstimate_spec hsome with ⟨hsm, r2, hr2, hs, hz⟩
  have hcp : countProbe noErr A B sm = 0 := by
    unfold countProbe noErr
    simp only [if_neg (by simp : ¬ (0 ≠ 0))]
    exact countCommon_zero_of A B hsm hnil
  have hs0 : s = 0 := by rw [hs, hcp]; exact Nat.zero_mul r2
  subst hs0
  rw [hz rfl] at hsome
  exact hsome

/-! ### The buffer-growth loop -/

theorem growLoop_found_le {found : Nat} :
    ∀ {fuel scanSize fs}, growLoop found scanSize fuel = some fs →
      found ≤ fs ∧ scanSize ≤ fs := by
  intro fuel
  induction fuel with
  | zero => intro _ _ h; exact absurd h (by simp [growLoop])
  | succ n ih =>
    intro scanSize fs h
    unfold growLoop at h
    by_cases hc : scanSize < found
    · rw [if_pos hc] at h
      rcases ih h with ⟨h1, h2⟩
      exact ⟨h1, by omega⟩
    · rw [if_neg hc] at h
      injection h with h'
      subst h'
      omega

theorem growLoop_isSome {found : Nat} :
    ∀ {fuel : Nat} (scanSize : Nat), 1 ≤ scanSize → found ≤ scanSize + fuel →
    (growLoop found scanSize (fuel + 1)).isSome := by
  intro fuel
  induction fuel with
  | zero =>
    intro scanSize hs hle
    unfold growLoop
    rw [if_neg (by omega)]
    rfl
  | succ n ih =>
    intro scanSize hs hle
    unfold growLoop
    by_cases hc : scanSize < found
    · rw [if_pos hc]
      exact ih _ (by omega) (by omega)
    · rw [if_neg hc]; rfl

theorem growLoop_run {found scanSize : Nat} (hs : 1 ≤ scanSize) :
    ∃ fs, growLoop found scanSize (found + 1) = some fs ∧ found ≤ fs := by
  rcases Nat.eq_zero_or_pos found with h0 | hpos
  · subst h0
    exact ⟨scanSize, by unfold growLoop; rw [if_neg (by omega)], Nat.zero_le _⟩
  · have h := @growLoop_isSome found found scanSize hs (by omega)
    rcases Option.isSome_iff_exists.mp h with ⟨fs, hfs⟩
    exact ⟨fs, hfs, (growLoop_found_le hfs).1⟩

/-! ### The decoupled output array -/

theorem getD_map_range {f : Nat → Nat} {n k : Nat} (hk : k < n) :
    ((List.range n).map f).getD k 0 = f k := by
  rw [List.getD_eq_getElem _ _ (by simp [hk]), List.getElem_map, List.getElem_range]

theorem pairs_to_decoupled_length (n : Nat) (joined : List (Nat × Nat))
    (flip : Bool) :
    (pairs_to_decoupled (List.replicate (2 * n) 0) n joined flip).length = 2 * n := by
  unfold pairs_to_decoupled
  split
  · simp; omega
  · simp

theorem decoupled_getD_left (n : Nat) (joined : List (Nat × Nat)) (flip : Bool)
    {k : Nat} (hk : k < n) :
    (pairs_to_decoupled (List.replicate (2 * n) 0) n joined flip).getD k 0 =
      if flip then (joined.getD k (0, 0)).2 else (joined.getD k (0, 0)).1 := by
  unfold pairs_to_decoupled
  rw [if_pos (by omega)]
  rw [List.getD_append _ _ _ _ (by simp [hk])]
  exact getD_map_range hk

theorem decoupled_getD_right (n : Nat) (joined : List (Nat × Nat)) (flip : Bool)
    {k : Nat} (hk : k < n) :
    (pairs_to_decoupled (List.replicate (2 * n) 0) n joined flip).getD (k + n) 0 =
      if flip then (joined.getD k (0, 0)).1 else (joined.getD k (0, 0)).2 := by
  unfold pairs_to_decoupled
  rw [if_pos (by omega)]
  have hlen1 : ((List.range n).map
      (fun index => if flip then (joined.getD index (0, 0)).2
                    else (joined.getD index (0, 0)).1)).length = n := by simp
  have hlt : k + n < n + n := by omega
  rw [List.getD_eq_getElem _ _ (by simp; omega)]
  rw [List.getElem_append_right (by omega)]
  have hidx : k + n - ((List.range n).map
      (fun index => if flip then (joined.getD index (0, 0)).2
                    else (joined.getD index (0, 0)).1)).length = k := by
    rw [hlen1]; omega
  rw [List.getElem_map]
  rw [List.getElem_range]
  rw [hidx]

theorem resultPairsOf_decoupled_false (n : Nat) (joined : List (Nat × Nat))
    (hlen : joined.length = n) :
    resultPairsOf (pairs_to_decoupled (List.replicate (2 * n) 0) n joined false) =
      joined := by
  unfold resultPairsOf
  simp only [pairs_to_decoupled_length]
  have hhalf : 2 * n / 2 = n := by omega
  rw [hhalf]
  refine List.ext_getElem (by simp [hlen]) ?_
  intro k h1 h2
  have hk : k < n := by simpa using h1
  rw [List.getElem_map, List.getElem_range]
  have hl := decoupled_getD_left n joined false hk
  have hr := decoupled_getD_right n joined false hk
  simp only [Bool.false_eq_true, if_false] at hl hr
  rw [hl, hr, List.getD_eq_getElem joined (0, 0) (by omega)]

theorem resultPairsOf_decoupled_true (n : Nat) (joined : List (Nat × Nat))
    (hlen : joined.length = n) :
    resultPairsOf (pairs_to_decoupled (List.replicate (2 * n) 0) n joined true) =
      joined.map Prod.swap := by
  unfold resultPairsOf
  simp only [pairs_to_decoupled_length]
  have hhalf : 2 * n / 2 = n := by omega
  rw [hhalf]
  refine List.ext_getElem (by simp [hlen]) ?_
  intro k h1 h2
  have hk : k < n := by simpa using h1
  rw [List.getElem_map, List.getElem_range]
  have hl := decoupled_getD_left n joined true hk
  have hr := decoupled_getD_right n joined true hk
  simp only [eq_self_iff_true, if_true] at hl hr
  rw [hl, hr, List.getD_eq_getElem joined (0, 0) (by omega), List.getElem_map]
  rfl

/-! ### Characterization of an error-free `GenericJoinHash` run -/

theorem generic_noErr_eq (A B : Cols) (flip : Bool) (init : List Nat) :
    GenericJoinHash noErr A B flip init =
      match finalEstimate noErr A B with
      | none => none
      | some (scanSize, _) =>
        if scanSize = 0 then some ⟨0, init⟩
        else
          match growLoop (allMatches A B).length scanSize
              ((allMatches A B).length + 1) with
          | none => none
          | some finalScan =>
            some ⟨0, pairs_to_decoupled (List.replicate (2 * (allMatches A B).length) 0)
              (allMatches A B).length ((allMatches A B).take finalScan) flip⟩ := by
  unfold GenericJoinHash
  simp [noErr]

theorem generic_noErr_none (A B : Cols) (flip : Bool) (init : List Nat)
    (hfe : finalEstimate noErr A B = none) :
    GenericJoinHash noErr A B flip init = none := by
  rw [generic_noErr_eq, hfe]

theorem generic_noErr_zero (A B : Cols) (flip : Bool) (init : List Nat) (sm : Nat)
    (hfe : finalEstimate noErr A B = some (0, sm)) :
    GenericJoinHash noErr A B flip init = some ⟨0, init⟩ := by
  rw [generic_noErr_eq, hfe]
  rfl

theorem generic_noErr_stuck (A B : Cols) (flip : Bool) (init : List Nat) (s sm : Nat)
    (hfe : finalEstimate noErr A B = some (s, sm)) (hs : s ≠ 0)
    (hgl : growLoop (allMatches A B).length s ((allMatches A B).length + 1) = none) :
    GenericJoinHash noErr A B flip init = none := by
  rw [generic_noErr_eq, hfe]
  simp [hs, hgl]

theorem generic_noErr_pos (A B : Cols) (flip : Bool) (init : List Nat) (s sm fs : Nat)
    (hfe : finalEstimate noErr A B = some (s, sm)) (hs : s ≠ 0)
    (hgl : growLoop (allMatches A B).length s ((allMatches A B).length + 1) = some fs) :
    GenericJoinHash noErr A B flip init =
      some ⟨0, pairs_to_decoupled (List.replicate (2 * (allMatches A B).length) 0)
        (allMatches A B).length ((allMatches A B).take fs) flip⟩ := by
  rw [generic_noErr_eq, hfe]
  simp [hs, hgl]

theorem generic_classify {A B : Cols} {flip : Bool} {init : List Nat} {r : JoinRet}
    (h : GenericJoinHash noErr A B flip init = some r) :
    r.status = 0 ∧
      ((allMatches A B = [] ∧ r.output = init) ∨
       (allMatches A B ≠ [] ∧
        r.output = pairs_to_decoupled
          (List.replicate (2 * (allMatches A B).length) 0)
          (allMatches A B).length (allMatches A B) flip)) := by
  rcases hfe : finalEstimate noErr A B with _ | ⟨s, sm⟩
  · rw [generic_noErr_none A B flip init hfe] at h
    exact absurd h (by simp)
  · by_cases hs : s = 0
    · subst hs
      rw [generic_noErr_zero A B flip init sm hfe] at h
      injection h with h'
      subst h'
      exact ⟨rfl, Or.inl ⟨finalEstimate_zero_no_matches hfe, rfl⟩⟩
    · rcases hgl : growLoop (allMatches A B).length s ((allMatches A B).length + 1)
        with _ | fs
      · rw [generic_noErr_stuck A B flip init s sm hfe hs hgl] at h
        exact absurd h (by simp)
      · rw [generic_noErr_pos A B flip init s sm fs hfe hs hgl] at h
        injection h with h'
        subst h'
        have hfs := (growLoop_found_le hgl).1
        have htake : (allMatches A B).take fs = allMatches A B :=
          List.take_of_length_le hfs
        rcases finalEstimate_spec hfe with ⟨hsm, r2, hr2, hsval, _⟩
        have hcp : 0 < countProbe noErr A B sm := by
          rcases Nat.eq_zero_or_pos (countProbe noErr A B sm) with h0 | h0
          · rw [h0, Nat.zero_mul] at hsval
            omega
          · exact h0
        have hcc : 0 < countCommon A B sm := by
          unfold countProbe noErr at hcp
          simpa using hcp
        have hne : allMatches A B ≠ [] := countCommon_pos_matches hsm hcc
        rw [htake]
        exact ⟨rfl, Or.inr ⟨hne, rfl⟩⟩

theorem generic_isSome {A B : Cols} (flip : Bool) (init : List Nat)
    (h : 1 ≤ B.count ∨ A.count = 0) :
    (GenericJoinHash noErr A B flip init).isSome := by
  rcases Option.isSome_iff_exists.mp (@finalEstimate_isSome noErr A B h)
    with ⟨⟨s, sm⟩, hfe⟩
  by_cases hs : s = 0
  · subst hs
    rw [generic_noErr_zero A B flip init sm hfe]
    rfl
  · rcases @growLoop_run (allMatches A B).length s (by omega) with ⟨fs, hfs, _⟩
    rw [generic_noErr_pos A B flip init s sm fs hfe hs hfs]
    rfl

/-! ### Characterization of `InnerJoinHash` runs started with an empty
output buffer -/

theorem mem_map_swap {l : List (Nat × Nat)} {i j : Nat} :
    (i, j) ∈ l.map Prod.swap ↔ (j, i) ∈ l := by
  constructor
  · intro h
    rcases List.mem_map.mp h with ⟨⟨a, b⟩, hab, hs⟩
    rw [Prod.swap_prod_mk] at hs
    injection hs with h1 h2
    subst h1
    subst h2
    exact hab
  · intro h
    exact List.mem_map.mpr ⟨(j, i), h, rfl⟩

theorem resultPairsOf_nil : resultPairsOf [] = [] := rfl

theorem inner_char {A B : Cols} {r : JoinRet}
    (h : InnerJoinHash noErr A B [] = some r) :
    r.status = 0 ∧
      ∀ i j, ((i, j) ∈ resultPairs r ↔
        i < A.count ∧ j < B.count ∧ rowMatch A B i j = true) := by
  unfold InnerJoinHash at h
  unfold resultPairs
  by_cases hswap : A.count < B.count
  · rw [if_pos hswap] at h
    rcases generic_classify h with ⟨hst, hcase⟩
    refine ⟨hst, fun i j => ?_⟩
    rcases hcase with ⟨hnil, hout⟩ | ⟨hne, hout⟩
    · rw [hout, resultPairsOf_nil]
      simp only [List.not_mem_nil, false_iff]
      rintro ⟨h1, h2, h3⟩
      have hmem : (j, i) ∈ allMatches B A :=
        mem_allMatches.mpr ⟨h2, h1, by rw [rowMatch_symm B A]; exact h3⟩
      rw [hnil] at hmem
      exact absurd hmem (List.not_mem_nil _)
    · rw [hout, resultPairsOf_decoupled_true _ _ rfl, mem_map_swap, mem_allMatches]
      constructor
      · rintro ⟨h1, h2, h3⟩
        exact ⟨h2, h1, by rw [rowMatch_symm A B]; exact h3⟩
      · rintro ⟨h1, h2, h3⟩
        exact ⟨h2, h1, by rw [rowMatch_symm B A]; exact h3⟩
  · rw [if_neg hswap] at h
    rcases generic_classify h with ⟨hst, hcase⟩
    refine ⟨hst, fun i j => ?_⟩
    rcases hcase with ⟨hnil, hout⟩ | ⟨hne, hout⟩
    · rw [hout, resultPairsOf_nil]
      simp only [List.not_mem_nil, false_iff]
      rintro ⟨h1, h2, h3⟩
      have hmem : (i, j) ∈ allMatches A B := mem_allMatches.mpr ⟨h1, h2, h3⟩
      rw [hnil] at hmem
      exact absurd hmem (List.not_mem_nil _)
    · rw [hout, resultPairsOf_decoupled_false _ _ rfl, mem_allMatches]

theorem inner_isSome (A B : Cols) (h : A.count = 0 ↔ B.count = 0) :
    (InnerJoinHash noErr A B []).isSome := by
  unfold InnerJoinHash
  by_cases hswap : A.count < B.count
  · rw [if_pos hswap]
    refine generic_isSome true [] ?_
    by_cases hA : A.count = 0
    · by_cases hB : B.count = 0
      · omega
      · exact Or.inl (by omega)
    · exact Or.inl (by omega)
  · rw [if_neg hswap]
    refine generic_isSome false [] ?_
    by_cases hB : B.count = 0
    · exact Or.inr (h.mpr hB)
    · exact Or.inl (by omega)

/-! ### Auxiliary facts used by the claim theorems -/

theorem countProbe_noErr (A B : Cols) (s : Nat) :
    countProbe noErr A B s = countCommon A B s := by
  unfold countProbe noErr
  simp

theorem ratio_halve_eq (rat : Nat) :
    (if rat / 2 = 0 then 1 else rat / 2) = max 1 (rat / 2) := by
  split <;> omega

theorem estimateLoop_eq_specEstimate (A B : Cols) :
    ∀ (fuel sample rat : Nat),
      estimateLoop noErr A B sample rat fuel = specEstimate A B sample rat fuel := by
  intro fuel
  induction fuel with
  | zero => intro sample rat; rfl
  | succ n ih =>
    intro sample rat
    simp only [estimateLoop, specEstimate, countProbe_noErr, ratio_halve_eq]
    by_cases h1 : 0 < countCommon A B (min sample A.count) * rat
    · rw [if_pos (Or.inl h1), if_pos h1]
    · by_cases h2 : min sample A.count = A.count
      · rw [if_pos (Or.inr h2), if_neg h1, if_pos h2]
      · rw [if_neg (by tauto), if_neg h1, if_neg h2,
          Nat.mul_comm (min sample A.count) 2]
        exact ih _ _

theorem estimateLoop_exit {env : ErrEnv} {A B : Cols} :
    ∀ {fuel sample rat s sm},
      estimateLoop env A B sample rat fuel = some (s, sm) →
      0 < s ∨ sm = A.count := by
  intro fuel
  induction fuel with
  | zero => intro _ _ _ _ h; exact absurd h (by simp [estimateLoop])
  | succ n ih =>
    intro sample rat s sm h
    unfold estimateLoop at h
    by_cases hc : 0 < countProbe env A B (min sample A.count) * rat ∨
        min sample A.count = A.count
    · rw [if_pos hc] at h
      injection h with h'
      injection h' with h1 h2
      subst h1
      subst h2
      exact hc
    · rw [if_neg hc] at h
      exact ih h

/-! ### The claims -/

/-- C1: every pair encoded in a result returned by `InnerJoinHash` or
`LeftJoinHash` (called with an empty output buffer) consists of a left row
and a right row whose join keys are equal, all supplied composite key
components included. -/
theorem join_result_pairs_match (A B : Cols) (r : JoinRet)
    (h : InnerJoinHash noErr A B [] = some r ∨ LeftJoinHash noErr A B [] = some r) :
    ∀ p, p ∈ resultPairs r → rowMatch A B p.1 p.2 = true := by
  rcases h with h | h
  · rintro ⟨i, j⟩ hp
    exact (((inner_char h).2 i j).mp hp).2.2
  · rintro ⟨i, j⟩ hp
    unfold LeftJoinHash at h
    rcases generic_classify h with ⟨hst, hcase⟩
    unfold resultPairs at hp
    rcases hcase with ⟨hnil, hout⟩ | ⟨hne, hout⟩
    · rw [hout, resultPairsOf_nil] at hp
      exact absurd hp (List.not_mem_nil _)
    · rw [hout, resultPairsOf_decoupled_false _ _ rfl] at hp
      exact (mem_allMatches.mp hp).2.2

/-- C1 witness: a composite-key instance; the single returned pair (1, 0)
matches on both key components. -/
theorem join_result_pairs_match_witness :
    (InnerJoinHash noErr ⟨[1, 2], some [7, 8], none⟩ ⟨[2, 3], some [8, 9], none⟩ [] =
        some ⟨0, [1, 0]⟩ ∨
     LeftJoinHash noErr ⟨[1, 2], some [7, 8], none⟩ ⟨[2, 3], some [8, 9], none⟩ [] =
        some ⟨0, [1, 0]⟩) ∧
    rowMatch ⟨[1, 2], some [7, 8], none⟩ ⟨[2, 3], some [8, 9], none⟩ 1 0 = true :=
  ⟨Or.inl rfl,
   join_result_pairs_match ⟨[1, 2], some [7, 8], none⟩ ⟨[2, 3], some [8, 9], none⟩
     ⟨0, [1, 0]⟩ (Or.inl rfl) (1, 0) (by decide)⟩

/-- C2 counterexample: with A = [0] and B empty, `InnerJoinHash` returns no
result at all (the estimator loop never terminates, see
`estimateLoop_stuck`), so the claim's universal completeness statement
fails at this input. -/
theorem inner_join_empty_side_no_result :
    InnerJoinHash noErr ⟨[0], none, none⟩ ⟨[], none, none⟩ [] = none := rfl

/-- C2 (amended): for inputs where one side is empty only if the other is
too, the inner join terminates successfully, its pair set is exactly the
full cross-matching set, and the result is symmetric under swapping the two
columns (same pair set with indices swapped), regardless of the internally
chosen build side. -/
theorem inner_join_complete_and_symmetric (A B : Cols)
    (h : A.count = 0 ↔ B.count = 0) :
    ∃ r s, InnerJoinHash noErr A B [] = some r ∧
      InnerJoinHash noErr B A [] = some s ∧
      r.status = 0 ∧ s.status = 0 ∧
      (∀ i j, (i, j) ∈ resultPairs r ↔
        (i < A.count ∧ j < B.count ∧ rowMatch A B i j = true)) ∧
      (∀ i j, (i, j) ∈ resultPairs r ↔ (j, i) ∈ resultPairs s) := by
  rcases Option.isSome_iff_exists.mp (inner_isSome A B h) with ⟨r, hr⟩
  rcases Option.isSome_iff_exists.mp (inner_isSome B A h.symm) with ⟨s, hs⟩
  rcases inner_char hr with ⟨hrst, hrmem⟩
  rcases inner_char hs with ⟨hsst, hsmem⟩
  refine ⟨r, s, hr, hs, hrst, hsst, hrmem, fun i j => ?_⟩
  rw [hrmem i j, hsmem j i]
  constructor
  · rintro ⟨h1, h2, h3⟩
    exact ⟨h2, h1, by rw [rowMatch_symm B A]; exact h3⟩
  · rintro ⟨h1, h2, h3⟩
    exact ⟨h2, h1, by rw [rowMatch_symm A B]; exact h3⟩

/-- C2 witness: the amended completeness/symmetry statement instantiated at
A = [1,2], B = [2]. -/
theorem inner_join_complete_and_symmetric_witness :
    (Cols.count ⟨[1, 2], none, none⟩ = 0 ↔ Cols.count ⟨[2], none, none⟩ = 0) ∧
    (∃ r s, InnerJoinHash noErr ⟨[1, 2], none, none⟩ ⟨[2], none, none⟩ [] = some r ∧
      InnerJoinHash noErr ⟨[2], none, none⟩ ⟨[1, 2], none, none⟩ [] = some s ∧
      r.status = 0 ∧ s.status = 0 ∧
      (∀ i j, (i, j) ∈ resultPairs r ↔
        (i < Cols.count ⟨[1, 2], none, none⟩ ∧ j < Cols.count ⟨[2], none, none⟩ ∧
          rowMatch ⟨[1, 2], none, none⟩ ⟨[2], none, none⟩ i j = true)) ∧
      (∀ i j, (i, j) ∈ resultPairs r ↔ (j, i) ∈ resultPairs s)) :=
  ⟨by decide, inner_join_complete_and_symmetric _ _ (by decide)⟩

/-- C3 (code bug): with a_count = 1 and b_count = 0 the guard
`a_count > 5*b_count` of source line 124 holds, so line 126 computes
`a_count / b_count` with a zero divisor (undefined behavior in C++), and
the sampling loop of lines 131-158 never terminates: the zero sample size
doubles to zero forever, so the join never returns — contradicting the
claimed empty-success result. -/
theorem empty_build_side_divides_by_zero_and_hangs :
    size_ratio_divides_by_zero 1 0 = true ∧
    (∀ fuel rat,
      estimateLoop noErr ⟨[0], none, none⟩ ⟨[], none, none⟩ 0 rat fuel = none) ∧
    GenericJoinHash noErr ⟨[0], none, none⟩ ⟨[], none, none⟩ false [] = none ∧
    LeftJoinHash noErr ⟨[0], none, none⟩ ⟨[], none, none⟩ [] = none :=
  ⟨rfl, fun fuel rat => estimateLoop_stuck noErr _ _ (by decide) fuel rat, rfl, rfl⟩

/-- C4 counterexample: A = [0], B = [] has zero true matches, yet the join
does not report a zero estimate and return an empty result — the estimator
loop never terminates on this input. -/
theorem zero_match_input_without_empty_result :
    allMatches ⟨[0], none, none⟩ ⟨[], none, none⟩ = [] ∧
    GenericJoinHash noErr ⟨[0], none, none⟩ ⟨[], none, none⟩ false [] = none :=
  ⟨rfl, rfl⟩

/-- C4 (amended): for every input with zero true matches in which the build
side is nonempty or the probe side is empty, the estimator's final estimate
is 0 with the full probe column sampled, and `GenericJoinHash` returns
success immediately with the output buffer untouched — the
probe/materialize retry loop is never entered. -/
theorem zero_matches_estimator_zero_and_short_circuit (A B : Cols) (flip : Bool)
    (init : List Nat) (hnil : allMatches A B = [])
    (h : 1 ≤ B.count ∨ A.count = 0) :
    finalEstimate noErr A B = some (0, A.count) ∧
    GenericJoinHash noErr A B flip init = some ⟨0, init⟩ := by
  have hfe := finalEstimate_of_no_matches hnil h
  exact ⟨hfe, generic_noErr_zero A B flip init A.count hfe⟩

/-- C4 witness: the amended statement instantiated at the match-free input
A = [1], B = [2]. -/
theorem zero_matches_estimator_zero_and_short_circuit_witness :
    allMatches ⟨[1], none, none⟩ ⟨[2], none, none⟩ = [] ∧
    (1 ≤ Cols.count ⟨[2], none, none⟩ ∨ Cols.count ⟨[1], none, none⟩ = 0) ∧
    finalEstimate noErr ⟨[1], none, none⟩ ⟨[2], none, none⟩ =
      some (0, Cols.count ⟨[1], none, none⟩) ∧
    GenericJoinHash noErr ⟨[1], none, none⟩ ⟨[2], none, none⟩ false [5] =
      some ⟨0, [5]⟩ :=
  ⟨rfl, Or.inl (by decide),
   (zero_matches_estimator_zero_and_short_circuit ⟨[1], none, none⟩
      ⟨[2], none, none⟩ false [5] rfl (Or.inl (by decide))).1,
   (zero_matches_estimator_zero_and_short_circuit ⟨[1], none, none⟩
      ⟨[2], none, none⟩ false [5] rfl (Or.inl (by decide))).2⟩

/-- C5: whenever an error-free `GenericJoinHash` call returns and at least
one match exists, the returned output is the complete decoupling of every
matching pair: the overflow detection via the final counter plus the
free/double/re-probe retries never lose matches, even when the true match
count exceeds the initial estimate. -/
theorem probe_retry_returns_complete_result (A B : Cols) (flip : Bool)
    (init : List Nat) (r : JoinRet)
    (h : GenericJoinHash noErr A B flip init = some r)
    (hne : allMatches A B ≠ []) :
    r.status = 0 ∧
    r.output = pairs_to_decoupled
      (List.replicate (2 * (allMatches A B).length) 0)
      (allMatches A B).length (allMatches A B) flip := by
  rcases generic_classify h with ⟨hst, hcase⟩
  rcases hcase with ⟨hnil, _⟩ | ⟨_, hout⟩
  · exact absurd hnil hne
  · exact ⟨hst, hout⟩

/-- C5 witness: a skewed input whose sampled estimate (3) undershoots the
true match count (5), forcing the doubling retry; the returned output is
still the complete decoupled pair list. -/
theorem probe_retry_returns_complete_result_witness :
    finalEstimate noErr ⟨[0, 1, 1, 1, 1, 1], none, none⟩ ⟨[1], none, none⟩ =
      some (3, 2) ∧
    (allMatches ⟨[0, 1, 1, 1, 1, 1], none, none⟩ ⟨[1], none, none⟩).length = 5 ∧
    allMatches ⟨[0, 1, 1, 1, 1, 1], none, none⟩ ⟨[1], none, none⟩ ≠ [] ∧
    JoinRet.output ⟨0, [1, 2, 3, 4, 5, 0, 0, 0, 0, 0]⟩ =
      pairs_to_decoupled
        (List.replicate
          (2 * (allMatches ⟨[0, 1, 1, 1, 1, 1], none, none⟩ ⟨[1], none, none⟩).length) 0)
        (allMatches ⟨[0, 1, 1, 1, 1, 1], none, none⟩ ⟨[1], none, none⟩).length
        (allMatches ⟨[0, 1, 1, 1, 1, 1], none, none⟩ ⟨[1], none, none⟩) false :=
  ⟨rfl, rfl, by decide,
   (probe_retry_returns_complete_result ⟨[0, 1, 1, 1, 1, 1], none, none⟩
      ⟨[1], none, none⟩ false []
      ⟨0, [1, 2, 3, 4, 5, 0, 0, 0, 0, 0]⟩ rfl (by decide)).2⟩

/-- C6: the estimation loop of `GenericJoinHash` coincides, for every input,
sample, ratio and fuel, with the estimator described by the spec
(initial sample/ratio choice, counter-times-ratio estimate, doubling and
ratio-halving with floor 1, and exit exactly on a positive estimate or a
fully sampled input). -/
theorem estimator_follows_spec (A B : Cols) (a b sample rat fuel : Nat) :
    initSample a b = specInitSample a b ∧
    estimateLoop noErr A B sample rat fuel = specEstimate A B sample rat fuel ∧
    (∀ s sm, estimateLoop noErr A B sample rat fuel = some (s, sm) →
      0 < s ∨ sm = A.count) := by
  refine ⟨?_, estimateLoop_eq_specEstimate A B fuel sample rat, ?_⟩
  · unfold initSample specInitSample
    rcases Nat.lt_or_ge (5 * b) a with h | h
    · rw [if_pos h, if_neg (by omega)]
    · rw [if_neg (by omega), if_pos (by omega)]
  · intro s sm h
    exact estimateLoop_exit h

/-- C6 witness: the equivalence and the exit characterization at the input
A = [1,2], B = [2] with sample 2, ratio 1, fuel 4 (the loop returns the
estimate 1 with sample 2 there). -/
theorem estimator_follows_spec_witness :
    initSample 6 1 = specInitSample 6 1 ∧
    estimateLoop noErr ⟨[1, 2], none, none⟩ ⟨[2], none, none⟩ 2 1 4 =
      specEstimate ⟨[1, 2], none, none⟩ ⟨[2], none, none⟩ 2 1 4 ∧
    (0 < 1 ∨ 2 = Cols.count ⟨[1, 2], none, none⟩) :=
  ⟨(estimator_follows_spec ⟨[1, 2], none, none⟩ ⟨[2], none, none⟩ 6 1 2 1 4).1,
   (estimator_follows_spec ⟨[1, 2], none, none⟩ ⟨[2], none, none⟩ 6 1 2 1 4).2.1,
   (estimator_follows_spec ⟨[1, 2], none, none⟩ ⟨[2], none, none⟩ 6 1 2 1 4).2.2
     1 2 rfl⟩

/-- C7: an inner-join result started from an empty output buffer is a single
array of length twice the match count whose first half references left rows
and whose second half references right rows, for both the swapped and the
unswapped internal build side (the flip restores the caller's ordering). -/
theorem output_is_decoupled_halves (A B : Cols) (r : JoinRet)
    (h : InnerJoinHash noErr A B [] = some r) :
    r.output.length = 2 * (allMatches A B).length ∧
    ∀ k, k < (allMatches A B).length →
      r.output.getD k 0 < A.count ∧
      r.output.getD (k + (allMatches A B).length) 0 < B.count := by
  unfold InnerJoinHash at h
  by_cases hswap : A.count < B.count
  · rw [if_pos hswap] at h
    rcases generic_classify h with ⟨hst, hcase⟩
    have hlen := length_allMatches_swap A B
    rcases hcase with ⟨hnil, hout⟩ | ⟨hne, hout⟩
    · have hAB : (allMatches A B).length = 0 := by
        rw [← hlen, hnil]
        rfl
      rw [hout]
      exact ⟨by simp [hAB], fun k hk => absurd hk (by omega)⟩
    · rw [hout]
      constructor
      · rw [pairs_to_decoupled_length, hlen]
      · intro k hk
        have hk' : k < (allMatches B A).length := by omega
        have hl := decoupled_getD_left (allMatches B A).length (allMatches B A) true hk'
        have hr := decoupled_getD_right (allMatches B A).length (allMatches B A) true hk'
        simp only [eq_self_iff_true, if_true] at hl hr
        have hmem : (allMatches B A).getD k (0, 0) ∈ allMatches B A := by
          rw [List.getD_eq_getElem _ _ hk']
          exact List.getElem_mem hk'
        rcases (allMatches B A).getD k (0, 0) with ⟨x, y⟩
        rcases mem_allMatches.mp hmem with ⟨hx, hy, _⟩
        rw [← hlen]
        exact ⟨by rw [hl]; exact hy, by rw [hr]; exact hx⟩
  · rw [if_neg hswap] at h
    rcases generic_classify h with ⟨hst, hcase⟩
    rcases hcase with ⟨hnil, hout⟩ | ⟨hne, hout⟩
    · rw [hout, hnil]
      exact ⟨rfl, fun k hk => absurd hk (by simp)⟩
    · rw [hout]
      constructor
      · rw [pairs_to_decoupled_length]
      · intro k hk
        have hl := decoupled_getD_left (allMatches A B).length (allMatches A B) false hk
        have hr := decoupled_getD_right (allMatches A B).length (allMatches A B) false hk
        simp only [Bool.false_eq_true, if_false] at hl hr
        have hmem : (allMatches A B).getD k (0, 0) ∈ allMatches A B := by
          rw [List.getD_eq_getElem _ _ hk]
          exact List.getElem_mem hk
        rcases (allMatches A B).getD k (0, 0) with ⟨x, y⟩
        rcases mem_allMatches.mp hmem with ⟨hx, hy, _⟩
        exact ⟨by rw [hl]; exact hx, by rw [hr]; exact hy⟩

/-- C7 witness: a swapped-build instance (A has 1 row, B has 2): the output
[0, 0] has length 2 * 1, its first half indexes into A and its second half
into B. -/
theorem output_is_decoupled_halves_witness :
    InnerJoinHash noErr ⟨[2], none, none⟩ ⟨[2, 3], none, none⟩ [] =
      some ⟨0, [0, 0]⟩ ∧
    (JoinRet.output ⟨0, [0, 0]⟩).length =
      2 * (allMatches ⟨[2], none, none⟩ ⟨[2, 3], none, none⟩).length ∧
    ((JoinRet.output ⟨0, [0, 0]⟩).getD 0 0 < Cols.count ⟨[2], none, none⟩ ∧
     (JoinRet.output ⟨0, [0, 0]⟩).getD
        (0 + (allMatches ⟨[2], none, none⟩ ⟨[2, 3], none, none⟩).length) 0 <
       Cols.count ⟨[2, 3], none, none⟩) :=
  ⟨rfl,
   (output_is_decoupled_halves ⟨[2], none, none⟩ ⟨[2, 3], none, none⟩
      ⟨0, [0, 0]⟩ rfl).1,
   (output_is_decoupled_halves ⟨[2], none, none⟩ ⟨[2, 3], none, none⟩
      ⟨0, [0, 0]⟩ rfl).2 0 (by decide)⟩

/-- C8 (code bug): a failed counting-probe launch (error 77) is ignored —
the join returns status 0 (success) with an empty result because line 143
re-checks a stale status never refreshed after the launch; a failed
materializing-probe synchronization (error 3) is returned, but only after
the output has been reallocated and transposed (clobbered to length 0), so
it does not short-circuit the remaining stages.  Only the build-launch
check (first conjunct's contrast, error 5) short-circuits as claimed. -/
theorem launch_errors_not_all_checked :
    GenericJoinHash ⟨0, 77, 0⟩ ⟨[1], none, none⟩ ⟨[1], none, none⟩ false [9] =
      some ⟨0, [9]⟩ ∧
    GenericJoinHash ⟨0, 0, 3⟩ ⟨[1], none, none⟩ ⟨[1], none, none⟩ false [9] =
      some ⟨3, []⟩ ∧
    GenericJoinHash ⟨5, 0, 0⟩ ⟨[1], none, none⟩ ⟨[1], none, none⟩ false [9] =
      some ⟨5, [9]⟩ :=
  ⟨rfl, rfl, rfl⟩

/-- C9: the hash-table capacity `hash_tbl_size` used on source line 102 is
`b_count * 100 / occupancy` in exact integer arithmetic, which at the
default occupancy of 50 percent is exactly twice the build-side row
count. -/
theorem hash_table_capacity (b_count : Nat) :
    hash_tbl_size b_count = 2 * b_count := by
  unfold hash_tbl_size DEFAULT_HASH_TBL_OCCUPANCY
  omega

/-- C10: on the zero-estimate short-circuit path `GenericJoinHash` returns
success with the caller's `joined_output` buffer completely untouched,
while every successful path that reaches the materializing probe
reallocates the output to length `2 * h_actual_found`. -/
theorem joined_output_frame (A B : Cols) (flip : Bool) (init : List Nat)
    (s sm : Nat) (hfe : finalEstimate noErr A B = some (s, sm)) :
    (s = 0 → GenericJoinHash noErr A B flip init = some ⟨0, init⟩) ∧
    (0 < s → ∀ r, GenericJoinHash noErr A B flip init = some r →
      r.output.length = 2 * (allMatches A B).length) := by
  constructor
  · intro hs
    subst hs
    exact generic_noErr_zero A B flip init sm hfe
  · intro hs r h
    rcases hgl : growLoop (allMatches A B).length s ((allMatches A B).length + 1)
      with _ | fs
    · rw [generic_noErr_stuck A B flip init s sm hfe (by omega) hgl] at h
      exact absurd h (by simp)
    · rw [generic_noErr_pos A B flip init s sm fs hfe (by omega) hgl] at h
      injection h with h'
      subst h'
      exact pairs_to_decoupled_length _ _ _

/-- C10 witness: the zero-estimate path at A = [1], B = [2] leaves the
caller's buffer [4, 4] untouched; the probe path at A = [1], B = [1]
returns an output of length 2 * 1. -/
theorem joined_output_frame_witness :
    finalEstimate noErr ⟨[1], none, none⟩ ⟨[2], none, none⟩ = some (0, 1) ∧
    GenericJoinHash noErr ⟨[1], none, none⟩ ⟨[2], none, none⟩ false [4, 4] =
      some ⟨0, [4, 4]⟩ ∧
    finalEstimate noErr ⟨[1], none, none⟩ ⟨[1], none, none⟩ = some (1, 1) ∧
    (JoinRet.output ⟨0, [0, 0]⟩).length =
      2 * (allMatches ⟨[1], none, none⟩ ⟨[1], none, none⟩).length :=
  ⟨rfl,
   (joined_output_frame ⟨[1], none, none⟩ ⟨[2], none, none⟩ false [4, 4] 0 1 rfl).1
     rfl,
   rfl,
   (joined_output_frame ⟨[1], none, none⟩ ⟨[1], none, none⟩ false [] 1 1 rfl).2
     (by decide) ⟨0, [0, 0]⟩ rfl⟩

end HashJoin
